import Mathlib

/-!
Verification of the quota-aware P2P task-delegation mesh.

Shallow embedding of the four core source components:
- QuotaMonitor (quota ledger: reserve/release/permission checks),
- SecurityManager (trust scores, per-peer rate limiting, prompt validation),
- EnhancedP2PManager (delegation sessions: chunked responses, timeouts),
- SignalingServer (peer registry and discovery).

JavaScript numbers are modelled as exact rationals, timestamps as integers.
Map objects become total functions or association lists, Set objects become
duplicate-free lists.  Every operation that reads the clock takes the current
time as an explicit argument.  Falsy-or defaults of the source (x || d) are
modelled by small helper functions that treat 0 and the empty string as falsy.
-/

namespace QM

def msPerMinute : ℤ := 60000

def msPerHour : ℤ := 3600000

def msPerDay : ℤ := 86400000

/-- Rate limits of the local quota (requestsPerMinute, requestsPerHour,
maxConcurrent fields of localQuota.rateLimits in the source constructor). -/
structure RateLimits where
  requestsPerMinute : ℚ
  requestsPerHour : ℚ
  maxConcurrent : ℕ
  deriving Repr, DecidableEq

/-- The localQuota record of QuotaMonitor. -/
structure LocalQuota where
  totalQuota : ℚ
  usedQuota : ℚ
  availableQuota : ℚ
  resetTime : ℤ
  rateLimits : RateLimits
  deriving Repr, DecidableEq

/-- One entry of requestHistory: pushed by reserveQuota, mutated in place by
releaseQuota (status, completedAt, actualCost). -/
structure ReqRecord where
  id : String
  timestamp : ℤ
  cost : ℚ
  status : String
  completedAt : Option ℤ
  actualCost : Option ℚ
  deriving Repr, DecidableEq

/-- Mutable state of a QuotaMonitor instance: localQuota, requestHistory and
the activeRequests set (peerQuotas and event handlers play no role in the
claims about the local ledger and are omitted from this state record). -/
structure QMState where
  localQuota : LocalQuota
  requestHistory : List ReqRecord
  activeRequests : List String
  deriving Repr, DecidableEq

/-- requestInfo argument of checkLocalPermission / reserveQuota. -/
structure RequestInfo where
  estimatedCost : Option ℚ := none
  priority : Option ℚ := none
  deriving Repr, DecidableEq

/-- completionInfo argument of releaseQuota. -/
structure CompletionInfo where
  status : Option String := none
  actualCost : Option ℚ := none
  deriving Repr, DecidableEq

/-- JavaScript x || d for numbers: undefined and 0 are falsy. -/
def jsNumOr (x : Option ℚ) (dflt : ℚ) : ℚ :=
  match x with
  | none => dflt
  | some c => if c = 0 then dflt else c

/-- JavaScript x || d for strings: undefined and the empty string are falsy. -/
def jsStrOr (x : Option String) (dflt : String) : String :=
  match x with
  | none => dflt
  | some s => if s = "" then dflt else s

/-- Set.add on the activeRequests set. -/
def setAdd (l : List String) (x : String) : List String :=
  if l.contains x then l else l ++ [x]

/-- getNextResetTime: next daily reset boundary (midnight UTC) strictly after
now; for the nonnegative epoch timestamps used throughout this is the next
multiple of msPerDay. -/
def getNextResetTime (now : ℤ) : ℤ :=
  (now / msPerDay + 1) * msPerDay

/-- updateQuotaReset: lazy daily reset.  If now has reached resetTime, zero
usedQuota, restore availableQuota to totalQuota, move resetTime forward and
drop request-history entries older than 24 hours. -/
def updateQuotaReset (s : QMState) (now : ℤ) : QMState :=
  if s.localQuota.resetTime ≤ now then
    { s with
      localQuota := { s.localQuota with
        usedQuota := 0
        availableQuota := s.localQuota.totalQuota
        resetTime := getNextResetTime now }
      requestHistory := s.requestHistory.filter (fun r => now - r.timestamp < msPerDay) }
  else s

/-- cleanupRequestHistory: keep only entries newer than 24 hours. -/
def cleanupRequestHistory (s : QMState) (now : ℤ) : QMState :=
  { s with requestHistory := s.requestHistory.filter (fun r => now - msPerDay < r.timestamp) }

/-- One window of getRateLimitStatus (current count, limit, remaining). -/
structure RateWindow where
  current : ℕ
  limit : ℚ
  remaining : ℚ
  deriving Repr, DecidableEq

/-- Result of getRateLimitStatus. -/
structure RateLimitStatus where
  perMinute : RateWindow
  perHour : RateWindow
  concurrent : RateWindow
  deriving Repr, DecidableEq

/-- getRateLimitStatus: first runs cleanupRequestHistory (a mutation), then
counts requests in the last minute and hour and the active request set. -/
def getRateLimitStatus (s : QMState) (now : ℤ) : RateLimitStatus × QMState :=
  let s1 := cleanupRequestHistory s now
  let minuteCount := (s1.requestHistory.filter (fun r => now - msPerMinute < r.timestamp)).length
  let hourCount := (s1.requestHistory.filter (fun r => now - msPerHour < r.timestamp)).length
  let rl := s1.localQuota.rateLimits
  ({ perMinute := { current := minuteCount, limit := rl.requestsPerMinute
                    remaining := max 0 (rl.requestsPerMinute - minuteCount) }
     perHour := { current := hourCount, limit := rl.requestsPerHour
                  remaining := max 0 (rl.requestsPerHour - hourCount) }
     concurrent := { current := s1.activeRequests.length, limit := (rl.maxConcurrent : ℚ)
                     remaining := max 0 ((rl.maxConcurrent : ℚ) - s1.activeRequests.length) } }, s1)

/-- Result of checkRateLimits. -/
structure RateCheck where
  allowed : Bool
  reason : Option String := none
  severe : Bool := false
  warning : Option String := none
  deriving Repr, DecidableEq

/-- checkRateLimits: hard minute/hour/concurrent limits, then soft warnings.
The state component is the one mutated by getRateLimitStatus. -/
def checkRateLimits (s : QMState) (now : ℤ) : RateCheck × QMState :=
  let st := (getRateLimitStatus s now).1
  (if st.perMinute.remaining ≤ 0 then
    { allowed := false, reason := some "rate_limit_minute", severe := true }
  else if st.perHour.remaining ≤ 0 then
    { allowed := false, reason := some "rate_limit_hour", severe := true }
  else if st.concurrent.remaining ≤ 0 then
    { allowed := false, reason := some "concurrent_limit", severe := false }
  else if st.perMinute.remaining < 5 then
    { allowed := true, warning := some "approaching_minute_limit" }
  else if st.perHour.remaining < 50 then
    { allowed := true, warning := some "approaching_hour_limit" }
  else { allowed := true }, (getRateLimitStatus s now).2)

/-- calculateCurrentLoad: weighted sum of quota usage, concurrency and
per-minute rate consumption, capped at 1. -/
def calculateCurrentLoad (s : QMState) (now : ℤ) : ℚ × QMState :=
  let usageFrac := s.localQuota.usedQuota / s.localQuota.totalQuota
  let concFrac := (s.activeRequests.length : ℚ) / (s.localQuota.rateLimits.maxConcurrent : ℚ)
  let st := (getRateLimitStatus s now).1
  let minuteFrac := 1 - st.perMinute.remaining / st.perMinute.limit
  (min 1 (usageFrac * (4/10) + concFrac * (3/10) + minuteFrac * (3/10)),
   (getRateLimitStatus s now).2)

/-- Permission result of checkLocalPermission. -/
structure Decision where
  allowed : Bool
  reason : Option String
  quotaRemaining : ℚ
  rateLimitStatus : RateLimitStatus
  recommendation : Option String
  deriving Repr, DecidableEq

/-- checkLocalPermission: runs updateQuotaReset and cleanupRequestHistory
(both mutations), builds the result shell (which reads the rate-limit status,
another cleanup), then checks quota, rate limits, the concurrency ceiling and
the load/priority rule, in source order. -/
def checkLocalPermission (s : QMState) (now : ℤ) (info : RequestInfo) : Decision × QMState :=
  let sA := updateQuotaReset s now
  let sB := cleanupRequestHistory sA now
  let rls := (getRateLimitStatus sB now).1
  let sC := (getRateLimitStatus sB now).2
  let base : Decision :=
    { allowed := true, reason := none, quotaRemaining := sC.localQuota.availableQuota
      rateLimitStatus := rls, recommendation := none }
  if sC.localQuota.availableQuota ≤ 0 then
    ({ base with allowed := false, reason := some "quota_exhausted"
                 recommendation := some "delegate_to_peer" }, sC)
  else
    let rc := (checkRateLimits sC now).1
    let sD := (checkRateLimits sC now).2
    if rc.allowed = false then
      ({ base with allowed := false, reason := rc.reason
                   recommendation := some (if rc.severe then "delegate_to_peer" else "retry_later") }, sD)
    else if sD.localQuota.rateLimits.maxConcurrent ≤ sD.activeRequests.length then
      ({ base with allowed := false, reason := some "concurrent_limit_exceeded"
                   recommendation := some "delegate_to_peer" }, sD)
    else
      let load := (calculateCurrentLoad sD now).1
      let sE := (calculateCurrentLoad sD now).2
      if 8/10 < load ∧ info.priority.getD 0 < 5 then
        ({ base with allowed := false, reason := some "high_load_low_priority"
                     recommendation := some "delegate_to_peer" }, sE)
      else (base, sE)

/-- Outcome of reserveQuota: a fresh reservation id, or the thrown denial. -/
inductive ReserveResult where
  | ok (reservationId : String)
  | denied (reason : Option String)
  deriving Repr, DecidableEq

/-- reserveQuota: re-runs checkLocalPermission (whose lazy-reset/cleanup
mutations persist even when the permission is denied and the source throws),
then debits the estimated cost (default 1, JavaScript falsy-or), adds the id
to activeRequests and pushes a history record.  The generated reservation id
is an explicit argument. -/
def reserveQuota (s : QMState) (now : ℤ) (info : RequestInfo) (rid : String) :
    ReserveResult × QMState :=
  let perm := (checkLocalPermission s now info).1
  let s1 := (checkLocalPermission s now info).2
  if perm.allowed = false then (.denied perm.reason, s1)
  else
    let cost := jsNumOr info.estimatedCost 1
    (.ok rid,
      { s1 with
        localQuota := { s1.localQuota with
          usedQuota := s1.localQuota.usedQuota + cost
          availableQuota := s1.localQuota.availableQuota - cost }
        activeRequests := setAdd s1.activeRequests rid
        requestHistory := s1.requestHistory ++
          [{ id := rid, timestamp := now, cost := cost, status := "active"
             completedAt := none, actualCost := none }] })

/-- Update the first list element satisfying p (the source mutates the object
returned by Array.find in place). -/
def updateFirst (p : α → Bool) (f : α → α) : List α → List α
  | [] => []
  | a :: as => if p a then f a :: as else a :: updateFirst p f as

/-- The fields releaseQuota writes into the found record: final status
(completionInfo.status, falsy-or completed), completion time, and the actual
cost (completionInfo.actualCost, falsy-or the estimated cost). -/
def relStamp (cinfo : CompletionInfo) (now : ℤ) (cost : ℚ) (r : ReqRecord) : ReqRecord :=
  { r with
    status := jsStrOr cinfo.status "completed"
    completedAt := some now
    actualCost := some (match cinfo.actualCost with
      | none => cost
      | some a => if a = 0 then cost else a) }

/-- The quota delta releaseQuota re-applies: nonzero exactly when a truthy
actualCost differs from the estimated cost. -/
def relAdjust (cinfo : CompletionInfo) (cost : ℚ) : ℚ :=
  match cinfo.actualCost with
  | some a => if a ≠ 0 ∧ a ≠ cost then a - cost else 0
  | none => 0

/-- releaseQuota: unknown ids are a no-op; otherwise mark the record with its
final status/completedAt/actualCost, remove the id from activeRequests, and
re-apply the cost delta whenever a truthy actualCost differs from the
originally estimated cost. -/
def releaseQuota (s : QMState) (now : ℤ) (rid : String) (cinfo : CompletionInfo) : QMState :=
  match s.requestHistory.find? (fun r => r.id == rid) with
  | none => s
  | some req =>
    { s with
      requestHistory :=
        updateFirst (fun r => r.id == rid) (relStamp cinfo now req.cost) s.requestHistory
      activeRequests := s.activeRequests.erase rid
      localQuota := { s.localQuota with
        usedQuota := s.localQuota.usedQuota + relAdjust cinfo req.cost
        availableQuota := s.localQuota.availableQuota - relAdjust cinfo req.cost } }

/-- A call against the ledger: one reserveQuota or one releaseQuota. -/
inductive QOp where
  | reserve (now : ℤ) (info : RequestInfo) (rid : String)
  | release (now : ℤ) (rid : String) (cinfo : CompletionInfo)
  deriving Repr, DecidableEq

/-- State reached after one ledger call (a denied reservation still keeps the
mutations made by its permission check, as in the source). -/
def applyOp (s : QMState) : QOp → QMState
  | .reserve now info rid => (reserveQuota s now info rid).2
  | .release now rid cinfo => releaseQuota s now rid cinfo

/-- State reached after a sequence of ledger calls. -/
def runOps (s : QMState) (ops : List QOp) : QMState :=
  ops.foldl applyOp s

/-- Guard under which one ledger call cannot overdraw the quota: a granted
reservation must cost no more than what is available at grant time, and a
release may only report an actual cost at most the estimated one (or a falsy
one, which the source ignores). -/
def safeOp (s : QMState) : QOp → Bool
  | .reserve now info _ =>
    let perm := (checkLocalPermission s now info).1
    let s1 := (checkLocalPermission s now info).2
    !perm.allowed || decide (jsNumOr info.estimatedCost 1 ≤ s1.localQuota.availableQuota)
  | .release _ rid cinfo =>
    match s.requestHistory.find? (fun r => r.id == rid) with
    | none => true
    | some req =>
      match cinfo.actualCost with
      | none => true
      | some a => decide (a = 0) || decide (a ≤ req.cost)

/-- The guard, along a whole call sequence. -/
def safeTrace : QMState → List QOp → Bool
  | _, [] => true
  | s, op :: ops => safeOp s op && safeTrace (applyOp s op) ops

/-- A fresh ledger as built by the QuotaMonitor constructor: nothing used,
everything available. -/
def freshState (total : ℚ) (rl : RateLimits) (resetTime : ℤ) : QMState :=
  { localQuota := { totalQuota := total, usedQuota := 0, availableQuota := total
                    resetTime := resetTime, rateLimits := rl }
    requestHistory := [], activeRequests := [] }

/-- Default rate limits of the source constructor (60/min, 1000/h, 5 concurrent). -/
def exRateLimits : RateLimits :=
  { requestsPerMinute := 60, requestsPerHour := 1000, maxConcurrent := 5 }

/-- Example ledger of the spec: totalQuota 15, availableQuota 15. -/
def exState0 : QMState := freshState 15 exRateLimits 86400000

/-- Request with estimated cost 10. -/
def exInfo10 : RequestInfo := { estimatedCost := some 10, priority := none }

/-- Ledger after the first cost-10 reservation. -/
def exS1 : QMState :=
  { localQuota := { totalQuota := 15, usedQuota := 10, availableQuota := 5
                    resetTime := 86400000, rateLimits := exRateLimits }
    requestHistory := [{ id := "r1", timestamp := 0, cost := 10, status := "active"
                         completedAt := none, actualCost := none }]
    activeRequests := ["r1"] }

/-- Ledger after the second cost-10 reservation. -/
def exS2 : QMState :=
  { localQuota := { totalQuota := 15, usedQuota := 20, availableQuota := -5
                    resetTime := 86400000, rateLimits := exRateLimits }
    requestHistory := [{ id := "r1", timestamp := 0, cost := 10, status := "active"
                         completedAt := none, actualCost := none },
                       { id := "r2", timestamp := 0, cost := 10, status := "active"
                         completedAt := none, actualCost := none }]
    activeRequests := ["r1", "r2"] }

/-- Ledger holding one active estimated-cost-1 reservation. -/
def relState : QMState :=
  { localQuota := { totalQuota := 15, usedQuota := 1, availableQuota := 14
                    resetTime := 86400000, rateLimits := exRateLimits }
    requestHistory := [{ id := "r1", timestamp := 0, cost := 1, status := "active"
                         completedAt := none, actualCost := none }]
    activeRequests := ["r1"] }

/-- Completion reporting an actual cost of 3. -/
def relInfo3 : CompletionInfo := { status := none, actualCost := some 3 }

/-- Ledger after releasing that reservation with an actual cost of 3. -/
def relS1 : QMState :=
  { localQuota := { totalQuota := 15, usedQuota := 3, availableQuota := 12
                    resetTime := 86400000, rateLimits := exRateLimits }
    requestHistory := [{ id := "r1", timestamp := 0, cost := 1, status := "completed"
                         completedAt := some 0, actualCost := some 3 }]
    activeRequests := [] }

/-- Ledger after releasing the same reservation a second time with the same
completion info. -/
def relS2 : QMState :=
  { localQuota := { totalQuota := 15, usedQuota := 5, availableQuota := 10
                    resetTime := 86400000, rateLimits := exRateLimits }
    requestHistory := [{ id := "r1", timestamp := 0, cost := 1, status := "completed"
                         completedAt := some 0, actualCost := some 3 }]
    activeRequests := [] }

/-- Guard under which a duplicate release cannot re-apply a cost delta: the
completion reports no actual cost, a falsy one, or exactly the estimated
cost of the reservation it releases. -/
def releaseIdemGuard (s : QMState) (rid : String) (cinfo : CompletionInfo) : Bool :=
  match s.requestHistory.find? (fun r => r.id == rid) with
  | none => true
  | some req =>
    match cinfo.actualCost with
    | none => true
    | some a => decide (a = 0) || decide (a = req.cost)

/-- Ledger whose reset time has already passed and that has nonzero usage. -/
def staleState : QMState :=
  { localQuota := { totalQuota := 15, usedQuota := 5, availableQuota := 10
                    resetTime := 0, rateLimits := exRateLimits }
    requestHistory := [], activeRequests := [] }

/-- Claim C1 as stated: on a fresh ledger with nonnegative total quota, no
sequence of reserveQuota and releaseQuota calls (any estimated and actual
costs) can drive availableQuota negative. -/
def ClaimC1 : Prop :=
  ∀ (total : ℚ) (rl : RateLimits) (rt : ℤ) (ops : List QOp),
    0 ≤ total → 0 ≤ (runOps (freshState total rl rt) ops).localQuota.availableQuota

/-- True when a reservation attempt was denied. -/
def ReserveResult.isDenied : ReserveResult → Bool
  | .denied _ => true
  | .ok _ => false

/-- Claim C5 as stated: checkLocalPermission never mutates the ledger state. -/
def ClaimC5 : Prop :=
  ∀ (s : QMState) (now : ℤ) (info : RequestInfo), (checkLocalPermission s now info).2 = s

end QM

namespace SM

/-- Configuration of the SecurityManager (fields of this.config that the
modelled operations read). -/
structure SMConfig where
  maxPromptLength : ℕ
  rateLimitWindow : ℤ
  maxRequestsPerWindow : ℕ
  trustDecayRate : ℚ
  minimumTrustScore : ℚ
  enableRateLimiting : Bool
  deriving Repr, DecidableEq

/-- The source defaults: 10000-char prompts, 1-minute window of 30 requests,
decay rate 0.01, trust floor 0.3, rate limiting on. -/
def defaultConfig : SMConfig :=
  { maxPromptLength := 10000, rateLimitWindow := 60000, maxRequestsPerWindow := 30
    trustDecayRate := 1/100, minimumTrustScore := 3/10, enableRateLimiting := true }

/-- Per-peer trust record. -/
structure TrustData where
  score : ℚ
  lastUpdated : ℤ
  interactions : ℕ
  violations : ℕ
  positiveActions : ℕ
  deriving Repr, DecidableEq

/-- Mutable state of a SecurityManager: trust map, per-peer request history
(timestamps, newest last) and the blocked set.  The suspicious-pattern and
event-handler bookkeeping plays no role in the claims and is omitted. -/
structure SMState where
  config : SMConfig
  trust : String → Option TrustData
  reqHistory : String → List ℤ
  blockedPeers : List String

/-- Fresh trust record: neutral 0.7 score, created on first interaction. -/
def initialTrust (now : ℤ) : TrustData :=
  { score := 7/10, lastUpdated := now, interactions := 0, violations := 0, positiveActions := 0 }

/-- checkRateLimit: prune entries that fell out of the sliding window (the
source shifts from the front while the head is older than the window start),
reject without recording when the window is full, otherwise record the
current request. -/
def checkRateLimit (σ : SMState) (pid : String) (now : ℤ) : Bool × SMState :=
  let windowStart := now - σ.config.rateLimitWindow
  let pruned := (σ.reqHistory pid).dropWhile (fun t => t < windowStart)
  if σ.config.maxRequestsPerWindow ≤ pruned.length then
    (false, { σ with reqHistory := fun p => if p = pid then pruned else σ.reqHistory p })
  else
    (true, { σ with reqHistory := fun p => if p = pid then pruned ++ [now] else σ.reqHistory p })

/-- blockPeer: add to the blocked set. -/
def blockPeer (σ : SMState) (pid : String) : SMState :=
  { σ with blockedPeers :=
      if σ.blockedPeers.contains pid then σ.blockedPeers else σ.blockedPeers ++ [pid] }

/-- updateTrustScore: create the record at 0.7 if absent, add the delta with
clamping into the unit interval, bump the interaction/violation/positive
counters, and auto-block when the new score is under the floor with more
than 3 violations.  No time-based decay is applied here. -/
def updateTrustScore (σ : SMState) (pid : String) (delta : ℚ) (now : ℤ) : SMState :=
  let td := (σ.trust pid).getD (initialTrust now)
  let newScore := max 0 (min 1 (td.score + delta))
  let td1 : TrustData :=
    { score := newScore, lastUpdated := now
      interactions := td.interactions + 1
      violations := td.violations + (if delta < 0 then 1 else 0)
      positiveActions := td.positiveActions + (if 0 < delta then 1 else 0) }
  let σ1 := { σ with trust := fun p => if p = pid then some td1 else σ.trust p }
  if newScore < σ.config.minimumTrustScore ∧ 3 < td1.violations then blockPeer σ1 pid else σ1

/-- getTrustScore: create the record at 0.7 if absent (in that case the
elapsed time is 0, so the exponential factor of the source is exactly 1),
then return the stored score multiplied by the decay factor, clamped into
the unit interval.  The factor exp(-trustDecayRate * elapsed / day) is a
transcendental of the elapsed time; it is passed here as an explicit
argument, so every theorem below quantifying over it covers in particular
the value the source computes. -/
def getTrustScore (σ : SMState) (pid : String) (now : ℤ) (decayFactor : ℚ) : ℚ × SMState :=
  match σ.trust pid with
  | some td => (max 0 (min 1 (td.score * decayFactor)), σ)
  | none =>
    (max 0 (min 1 ((initialTrust now).score * 1)),
     { σ with trust := fun p => if p = pid then some (initialTrust now) else σ.trust p })

/-- Verdict of validatePrompt. -/
structure VResult where
  valid : Bool
  issues : List String
  riskLevel : String
  trustImpact : ℚ
  action : String
  deriving Repr, DecidableEq

/-- The pattern categories that force rejection. -/
def criticalPatterns : List String :=
  ["system_prompt_injection", "code_execution", "information_extraction"]

/-- validatePrompt: blocked senders are rejected before anything else; then
the length check, the content-pattern check, the rate-limit check (which
records the request), the trust-floor check, and finally the trust update
when the accumulated impact is nonzero.  The prompt itself enters only
through its length (promptLen) and through the result of the regex library
detectMaliciousPatterns (detected); decayFactor abstracts the exponential
factor of the embedded getTrustScore read, as above. -/
def validatePrompt (σ : SMState) (pid : String) (promptLen : ℕ) (detected : List String)
    (now : ℤ) (decayFactor : ℚ) : VResult × SMState :=
  if σ.blockedPeers.contains pid then
    ({ valid := false, issues := ["sender_blocked"], riskLevel := "critical"
       trustImpact := 0, action := "reject" }, σ)
  else
    let r0 : VResult :=
      { valid := true, issues := [], riskLevel := "low", trustImpact := 0, action := "allow" }
    let r1 :=
      if σ.config.maxPromptLength < promptLen then
        { r0 with issues := r0.issues ++ ["prompt_too_long"], riskLevel := "medium"
                  trustImpact := -(1/10) }
      else r0
    let r2 :=
      if detected.isEmpty then r1
      else
        let base := { r1 with issues := r1.issues ++ detected, riskLevel := "high"
                              trustImpact := -(3/10) }
        if detected.any (fun p => criticalPatterns.contains p) then
          { base with valid := false, riskLevel := "critical", action := "reject"
                      trustImpact := -(1/2) }
        else base
    let rlAllowed := if σ.config.enableRateLimiting then (checkRateLimit σ pid now).1 else true
    let σ1 := if σ.config.enableRateLimiting then (checkRateLimit σ pid now).2 else σ
    let r3 :=
      if rlAllowed = false then
        { r2 with valid := false, issues := r2.issues ++ ["rate_limit_exceeded"]
                  riskLevel := "medium", action := "reject", trustImpact := -(1/5) }
      else r2
    let ts := (getTrustScore σ1 pid now decayFactor).1
    let σ2 := (getTrustScore σ1 pid now decayFactor).2
    let r4 :=
      if ts < σ.config.minimumTrustScore then
        { r3 with valid := false, issues := r3.issues ++ ["low_trust_score"]
                  riskLevel := "high", action := "reject" }
      else r3
    (r4, if r4.trustImpact ≠ 0 then updateTrustScore σ2 pid r4.trustImpact now else σ2)

/-- Trust penalty per failure category (reportFailedInteraction switch):
timeouts are mild, malicious content severe, anything else -0.1. -/
def failurePenalty (reason : String) : ℚ :=
  if reason = "timeout" then -(5/100)
  else if reason = "malicious_content" then -(3/10)
  else if reason = "connection_failed" then -(2/100)
  else -(1/10)

/-- reportFailedInteraction: translate the failure category into a trust
delta. -/
def reportFailedInteraction (σ : SMState) (pid : String) (reason : String) (now : ℤ) : SMState :=
  updateTrustScore σ pid (failurePenalty reason) now

/-- The stored score a read would start from: the record's score, or the
neutral 0.7 default for an unknown peer. -/
def scoreView (σ : SMState) (pid : String) : ℚ :=
  match σ.trust pid with
  | some td => td.score
  | none => 7/10

/-- Fresh SecurityManager state. -/
def initialSM (cfg : SMConfig) : SMState :=
  { config := cfg, trust := fun _ => none, reqHistory := fun _ => [], blockedPeers := [] }

/-- A sequence of updateTrustScore calls (peer, delta, time). -/
def applyTrustUpdates (σ : SMState) (ops : List (String × ℚ × ℤ)) : SMState :=
  ops.foldl (fun σ u => updateTrustScore σ u.1 u.2.1 u.2.2) σ

/-- A sequence of updateTrustScore calls against one fixed peer. -/
def applyDeltas (σ : SMState) (pid : String) (ds : List (ℚ × ℤ)) : SMState :=
  ds.foldl (fun σ d => updateTrustScore σ pid d.1 d.2) σ

/-- The stored-score recurrence of updateTrustScore: add the delta, clamp
into the unit interval. -/
def clampAdd (s d : ℚ) : ℚ :=
  max 0 (min 1 (s + d))

/-- The request history with expired entries pruned, as checkRateLimit
prunes it. -/
def prunedHistory (σ : SMState) (pid : String) (now : ℤ) : List ℤ :=
  (σ.reqHistory pid).dropWhile (fun t => t < now - σ.config.rateLimitWindow)

/-- A peer sitting at the extreme score 1 whose record is long idle. -/
def idleTrustData : TrustData :=
  { score := 1, lastUpdated := 0, interactions := 5, violations := 0, positiveActions := 5 }

/-- SecurityManager state knowing only that idle extreme peer. -/
def idleSM : SMState :=
  { config := defaultConfig
    trust := fun p => if p = "peer" then some idleTrustData else none
    reqHistory := fun _ => [], blockedPeers := [] }

/-- SecurityManager state in which sender s has a full one-minute window
(30 requests recorded at time 0). -/
def fullWindowSM : SMState :=
  { config := defaultConfig
    trust := fun _ => none
    reqHistory := fun p => if p = "s" then List.replicate 30 0 else []
    blockedPeers := [] }

/-- Claim C4, specialised to its operative consequence: updateTrust first
decays the stored score toward the neutral midpoint as a function of the
elapsed time, and only then applies the delta with clamping — so a peer
pinned at the extreme score 1 whose record has been idle for at least a day
must come out strictly below 1 from a delta-0 update. -/
def ClaimC4 : Prop :=
  ∀ (σ : SMState) (pid : String) (td : TrustData) (now : ℤ),
    σ.trust pid = some td → td.score = 1 → td.lastUpdated + QM.msPerDay ≤ now →
      scoreView (updateTrustScore σ pid 0 now) pid < 1

/-- Claim C10 as stated: every validatePrompt call by a non-blocked sender
with rate limiting enabled appends one entry to that sender's pruned
sliding-window history, whatever the verdict. -/
def ClaimC10 : Prop :=
  ∀ (σ : SMState) (pid : String) (promptLen : ℕ) (detected : List String) (now : ℤ) (f : ℚ),
    σ.config.enableRateLimiting = true → σ.blockedPeers.contains pid = false →
      (validatePrompt σ pid promptLen detected now f).2.reqHistory pid =
        prunedHistory σ pid now ++ [now]

end SM

namespace P2P

/-- Terminal outcome of a delegation promise. -/
inductive POutcome where
  | resolved (value : String)
  | rejected (error : String)
  deriving Repr, DecidableEq

/-- The per-task entry of the eventHandlers map (key task-taskId): the
response buffer accumulated so far (undefined until the first chunk) and
whether the per-task timer is still pending. -/
structure TaskHandler where
  responseBuffer : Option String
  timerArmed : Bool
  deriving Repr, DecidableEq

/-- Session bookkeeping of the EnhancedP2PManager: the handler map and, per
taskId, the promise returned by delegatePrompt (none = never created,
some none = pending, some (some o) = settled with o). -/
structure P2PState where
  handlers : String → Option TaskHandler
  promises : String → Option (Option POutcome)

/-- Settle a promise: the first terminal event wins, later ones are ignored
(resolve/reject on an already-settled promise are no-ops). -/
def settle (promises : String → Option (Option POutcome)) (tid : String) (o : POutcome) :
    String → Option (Option POutcome) :=
  fun t =>
    if t = tid then
      match promises tid with
      | some none => some (some o)
      | x => x
    else promises t

/-- delegatePrompt, after the task message was sent: a pending promise and a
handler entry with an armed timer and no buffer yet. -/
def registerDelegation (p : P2PState) (tid : String) : P2PState :=
  { handlers := fun t =>
      if t = tid then some { responseBuffer := none, timerArmed := true } else p.handlers t
    promises := fun t => if t = tid then some none else p.promises t }

/-- One prompt-response chunk message. -/
structure ResponseMsg where
  taskId : String
  chunk : String
  chunkIndex : ℕ
  isComplete : Bool
  deriving Repr, DecidableEq

/-- handlePromptResponse: unknown task ids are ignored; otherwise the chunk
payload is appended to the buffer in arrival order (chunkIndex is read but
never used for ordering).  A completing chunk clears the timer, resolves the
promise with the accumulated buffer and deletes the handler entry. -/
def handlePromptResponse (p : P2PState) (m : ResponseMsg) : P2PState :=
  match p.handlers m.taskId with
  | none => p
  | some h =>
    let buf := h.responseBuffer.getD "" ++ m.chunk
    if m.isComplete then
      { handlers := fun t => if t = m.taskId then none else p.handlers t
        promises := settle p.promises m.taskId (.resolved buf) }
    else
      { p with handlers := fun t =>
          if t = m.taskId then some { h with responseBuffer := some buf } else p.handlers t }

/-- The per-task timeout callback of delegatePrompt: it only rejects the
pending promise.  The handler entry and its buffered chunks stay in the map,
and nothing else is touched. -/
def timerFire (p : P2PState) (tid : String) : P2PState :=
  match p.handlers tid with
  | none => p
  | some h =>
    if h.timerArmed then
      { handlers := fun t =>
          if t = tid then some { h with timerArmed := false } else p.handlers t
        promises := settle p.promises tid (.rejected "Prompt delegation timeout") }
    else p

/-- handlePromptError: reject the promise and delete the handler entry. -/
def handlePromptError (p : P2PState) (tid : String) (err : String) : P2PState :=
  match p.handlers tid with
  | none => p
  | some _ =>
    { handlers := fun t => if t = tid then none else p.handlers t
      promises := settle p.promises tid (.rejected err) }

/-- A sequence of arriving response chunks. -/
def deliver (p : P2PState) (msgs : List ResponseMsg) : P2PState :=
  msgs.foldl handlePromptResponse p

/-- Concatenation of the chunk payloads in arrival order. -/
def chunksConcat (msgs : List ResponseMsg) : String :=
  (msgs.map (fun m => m.chunk)).foldl (fun a b => a ++ b) ""

/-- The timeout event on the combined system: the EnhancedP2PManager has no
reference to the SecurityManager, so the security state is untouched. -/
def timeoutStep (p : P2PState) (σ : SM.SMState) (tid : String) : P2PState × SM.SMState :=
  (timerFire p tid, σ)

/-- Empty session state. -/
def p0 : P2PState := { handlers := fun _ => none, promises := fun _ => none }

/-- Session with one pending delegation t. -/
def pReg : P2PState := registerDelegation p0 "t"

/-- Chunk A, index 0. -/
def msgA : ResponseMsg := { taskId := "t", chunk := "A", chunkIndex := 0, isComplete := false }

/-- Chunk B, index 1. -/
def msgB : ResponseMsg := { taskId := "t", chunk := "B", chunkIndex := 1, isComplete := false }

/-- Chunk C, index 2, carrying the completion flag. -/
def msgC : ResponseMsg := { taskId := "t", chunk := "C", chunkIndex := 2, isComplete := true }

/-- The session after chunks arrive out of order: indices 1, 0, then 2. -/
def pOutOfOrder : P2PState := deliver pReg [msgB, msgA, msgC]

/-- Claim C3 as stated, at the spec's own example: chunks arriving in order
1, 0, 2 (complete on 2) are delivered reassembled in ascending index order,
that is as A, B, C. -/
def ClaimC3 : Prop :=
  pOutOfOrder.promises "t" = some (some (.resolved "ABC"))

/-- Pending delegation t that has already buffered a partial response. -/
def pBuffered : P2PState :=
  { handlers := fun t =>
      if t = "t" then some { responseBuffer := some "partial", timerArmed := true } else none
    promises := fun t => if t = "t" then some none else none }

/-- Claim C6 as stated, at a concrete expiry: when the timer of task t fires
before a terminal chunk, the buffered partial response is discarded (the
handler entry goes away), the pending completion is rejected with the
timeout error, and the Trust Guard records a timeout-category failure
against the target peer. -/
def ClaimC6 : Prop :=
  (timeoutStep pBuffered SM.idleSM "t").1.handlers "t" = none ∧
  (timeoutStep pBuffered SM.idleSM "t").1.promises "t" =
    some (some (.rejected "Prompt delegation timeout")) ∧
  (timeoutStep pBuffered SM.idleSM "t").2 =
    SM.reportFailedInteraction SM.idleSM "peer" "timeout" 86400000

end P2P

namespace Sig

/-- Connection record of the peers map (ws.readyState reduced to open or
not, plus lastActivity). -/
structure PeerConn where
  wsOpen : Bool
  lastActivity : ℤ
  deriving Repr, DecidableEq

/-- Quota part of an announced capability object. -/
structure QuotaCaps where
  availableQuota : ℚ
  totalQuota : ℚ
  deriving Repr, DecidableEq

/-- Performance part of an announced capability object. -/
structure Perf where
  latency : Option ℚ
  deriving Repr, DecidableEq

/-- An announced capability object (the fields findMatchingPeers and
calculatePeerScore read). -/
structure Caps where
  hasAI : Bool
  quota : Option QuotaCaps
  models : Option (List String)
  performance : Option Perf
  deriving Repr, DecidableEq

/-- Registry state of the SignalingServer: connection table and capability
cache, both keyed by peer id. -/
structure SigState where
  peers : List (String × PeerConn)
  capabilities : List (String × Caps)
  deriving Repr, DecidableEq

/-- Discovery requirements. -/
structure Requirements where
  needsAI : Bool := false
  minQuota : Option ℚ := none
  preferredModels : Option (List String) := none
  deriving Repr, DecidableEq

/-- One entry of the list findMatchingPeers returns. -/
structure MatchPeer where
  peerId : String
  capabilities : Caps
  performance : Option Perf
  lastSeen : ℤ
  deriving Repr, DecidableEq

/-- Map lookup on the peers table. -/
def lookupPeer (st : SigState) (pid : String) : Option PeerConn :=
  (st.peers.find? (fun q => q.1 == pid)).map (fun q => q.2)

/-- The requirement predicates of findMatchingPeers.  JavaScript truthiness:
a minQuota of 0 disables the quota filter, and the preferred-model filter
runs whenever both arrays exist. -/
def capMatches (reqs : Requirements) (caps : Caps) : Bool :=
  let m1 := !(reqs.needsAI && !caps.hasAI)
  let m2 :=
    match reqs.minQuota, caps.quota with
    | some mq, some q => !(decide (mq ≠ 0) && decide (q.availableQuota < mq))
    | _, _ => true
  let m3 :=
    match reqs.preferredModels, caps.models with
    | some pms, some ms => pms.any (fun m => ms.contains m)
    | _, _ => true
  m1 && m2 && m3

/-- calculatePeerScore: 0.4 per available quota unit, a flat 30-point bonus
for a truthy latency under 100ms, 0.1 per supported model, and a 10-point
recency bonus under 5 minutes. -/
def calculatePeerScore (now : ℤ) (mp : MatchPeer) : ℚ :=
  let s1 : ℚ := match mp.capabilities.quota with
    | some q => q.availableQuota * (4/10)
    | none => 0
  let s2 : ℚ := match mp.performance with
    | some pf =>
      match pf.latency with
      | some lat => if lat ≠ 0 ∧ lat < 100 then 30 else 0
      | none => 0
    | none => 0
  let s3 : ℚ := match mp.capabilities.models with
    | some ms => (ms.length : ℚ) * (1/10)
    | none => 0
  let s4 : ℚ := if ((now - mp.lastSeen : ℤ) : ℚ) / 60000 < 5 then 10 else 0
  s1 + s2 + s3 + s4

/-- findMatchingPeers: walk the capability cache, skip the requester and any
peer whose transport is missing or not open, keep requirement matches, and
sort by descending score. -/
def findMatchingPeers (st : SigState) (requesterId : String) (reqs : Requirements)
    (now : ℤ) : List MatchPeer :=
  let candidates := st.capabilities.filterMap (fun pc =>
    if pc.1 == requesterId then none
    else
      match lookupPeer st pc.1 with
      | none => none
      | some conn =>
        if conn.wsOpen = false then none
        else if capMatches reqs pc.2 then
          some { peerId := pc.1, capabilities := pc.2
                 performance := pc.2.performance, lastSeen := conn.lastActivity }
        else none)
  candidates.mergeSort (fun a b => decide (calculatePeerScore now b ≤ calculatePeerScore now a))

/-- handlePeerDisconnect: drop the peer from the connection table and the
capability cache (the rate-limit table is not modelled). -/
def handlePeerDisconnect (st : SigState) (pid : String) : SigState :=
  { peers := st.peers.filter (fun q => q.1 ≠ pid)
    capabilities := st.capabilities.filter (fun q => q.1 ≠ pid) }

/-- A registry with a requester and one open AI-capable peer. -/
def exSig : SigState :=
  { peers := [("me", { wsOpen := true, lastActivity := 0 }),
              ("p1", { wsOpen := true, lastActivity := 0 })]
    capabilities := [("p1", { hasAI := true, quota := none, models := none, performance := none })] }

/-- Discovery requirement asking for AI support. -/
def exReqs : Requirements := { needsAI := true }

/-- The discovery entry for that peer. -/
def exMatch : MatchPeer :=
  { peerId := "p1"
    capabilities := { hasAI := true, quota := none, models := none, performance := none }
    performance := none, lastSeen := 0 }

end Sig

namespace QM

theorem cleanup_idem (s : QMState) (now : ℤ) :
    cleanupRequestHistory (cleanupRequestHistory s now) now = cleanupRequestHistory s now := by
  simp [cleanupRequestHistory, List.filter_filter]

theorem getRateLimitStatus_snd (s : QMState) (now : ℤ) :
    (getRateLimitStatus s now).2 = cleanupRequestHistory s now := rfl

theorem checkRateLimits_snd (s : QMState) (now : ℤ) :
    (checkRateLimits s now).2 = cleanupRequestHistory s now := rfl

theorem calculateCurrentLoad_snd (s : QMState) (now : ℤ) :
    (calculateCurrentLoad s now).2 = cleanupRequestHistory s now := rfl

theorem checkLocalPermission_snd (s : QMState) (now : ℤ) (info : RequestInfo) :
    (checkLocalPermission s now info).2 =
      cleanupRequestHistory (updateQuotaReset s now) now := by
  unfold checkLocalPermission
  dsimp only
  simp only [getRateLimitStatus_snd, checkRateLimits_snd, calculateCurrentLoad_snd, cleanup_idem]
  split <;> first | rfl | (split <;> first | rfl | (split <;> first | rfl | (split <;> rfl)))

theorem checkLocalPermission_snd_localQuota (s : QMState) (now : ℤ) (info : RequestInfo) :
    ((checkLocalPermission s now info).2).localQuota = (updateQuotaReset s now).localQuota := by
  rw [checkLocalPermission_snd]; rfl

theorem updateQuotaReset_totalQuota (s : QMState) (now : ℤ) :
    (updateQuotaReset s now).localQuota.totalQuota = s.localQuota.totalQuota := by
  unfold updateQuotaReset
  split <;> rfl

theorem updateQuotaReset_availableQuota (s : QMState) (now : ℤ) :
    (updateQuotaReset s now).localQuota.availableQuota = s.localQuota.availableQuota ∨
    (updateQuotaReset s now).localQuota.availableQuota = s.localQuota.totalQuota := by
  unfold updateQuotaReset
  split
  · right; rfl
  · left; rfl

theorem check_inv (s : QMState) (now : ℤ) (info : RequestInfo)
    (h1 : 0 ≤ s.localQuota.totalQuota) (h2 : 0 ≤ s.localQuota.availableQuota) :
    0 ≤ ((checkLocalPermission s now info).2).localQuota.totalQuota ∧
    0 ≤ ((checkLocalPermission s now info).2).localQuota.availableQuota := by
  rw [checkLocalPermission_snd_localQuota, updateQuotaReset_totalQuota]
  refine ⟨h1, ?_⟩
  rcases updateQuotaReset_availableQuota s now with h | h <;> rw [h]
  · exact h2
  · exact h1

theorem safe_step_inv (s : QMState) (op : QOp)
    (h1 : 0 ≤ s.localQuota.totalQuota) (h2 : 0 ≤ s.localQuota.availableQuota)
    (hs : safeOp s op = true) :
    0 ≤ (applyOp s op).localQuota.totalQuota ∧
    0 ≤ (applyOp s op).localQuota.availableQuota := by
  cases op with
  | reserve now info rid =>
    have hc := check_inv s now info h1 h2
    simp only [applyOp, reserveQuota]
    simp only [safeOp, Bool.or_eq_true, Bool.not_eq_true', decide_eq_true_eq] at hs
    by_cases hal : (checkLocalPermission s now info).1.allowed = false
    · simp only [hal, if_true]
      exact hc
    · simp only [hal, if_false]
      rcases hs with hs | hs
      · exact absurd hs hal
      · exact ⟨hc.1, by simpa using sub_nonneg.mpr hs⟩
  | release now rid cinfo =>
    simp only [applyOp, releaseQuota]
    cases hfind : s.requestHistory.find? (fun r => r.id == rid) with
    | none => simp only [hfind]; exact ⟨h1, h2⟩
    | some req =>
      simp only [safeOp, hfind] at hs
      simp only [hfind]
      refine ⟨h1, ?_⟩
      have hr : relAdjust cinfo req.cost ≤ 0 := by
        unfold relAdjust
        cases hac : cinfo.actualCost with
        | none => norm_num
        | some a =>
          simp only [hac, Bool.or_eq_true, decide_eq_true_eq] at hs
          dsimp only
          by_cases hcond : a ≠ 0 ∧ a ≠ req.cost
          · rw [if_pos hcond]
            have hle : a ≤ req.cost := by
              rcases hs with hs | hs
              · exact absurd hs hcond.1
              · exact hs
            linarith
          · rw [if_neg hcond]
      linarith

theorem availableQuota_nonneg_aux (ops : List QOp) :
    ∀ s : QMState, 0 ≤ s.localQuota.totalQuota → 0 ≤ s.localQuota.availableQuota →
      safeTrace s ops = true →
      0 ≤ (runOps s ops).localQuota.totalQuota ∧
      0 ≤ (runOps s ops).localQuota.availableQuota := by
  induction ops with
  | nil => exact fun s h1 h2 _ => ⟨h1, h2⟩
  | cons op ops ih =>
    intro s h1 h2 hsafe
    simp only [safeTrace, Bool.and_eq_true] at hsafe
    have hstep := safe_step_inv s op h1 h2 hsafe.1
    exact ih (applyOp s op) hstep.1 hstep.2 hsafe.2

theorem ev_reserve1 : reserveQuota exState0 0 exInfo10 "r1" = (.ok "r1", exS1) := by
  norm_num [reserveQuota, checkLocalPermission, updateQuotaReset, cleanupRequestHistory,
    getRateLimitStatus, checkRateLimits, calculateCurrentLoad, jsNumOr, setAdd,
    exState0, freshState, exInfo10, exS1, exRateLimits, msPerMinute, msPerHour, msPerDay]

theorem ev_reserve2 : reserveQuota exS1 0 exInfo10 "r2" = (.ok "r2", exS2) := by
  norm_num [reserveQuota, checkLocalPermission, updateQuotaReset, cleanupRequestHistory,
    getRateLimitStatus, checkRateLimits, calculateCurrentLoad, jsNumOr, setAdd,
    exS1, exInfo10, exS2, exRateLimits, msPerMinute, msPerHour, msPerDay]
  decide

theorem ev_run2 :
    runOps exState0 [QOp.reserve 0 exInfo10 "r1", QOp.reserve 0 exInfo10 "r2"] = exS2 := by
  simp only [runOps, List.foldl, applyOp, ev_reserve1, ev_reserve2]

end QM

namespace QM

/-- C1 (counterexample): on a fresh ledger of total 15 the two cost-10
reservations are both granted and leave availableQuota at -5, so the stated
invariant fails. -/
theorem quota_claim_c1_false : ¬ ClaimC1 := by
  intro h
  have hx := h 15 exRateLimits 86400000
    [QOp.reserve 0 exInfo10 "r1", QOp.reserve 0 exInfo10 "r2"] (by norm_num)
  rw [show freshState 15 exRateLimits 86400000 = exState0 from rfl, ev_run2] at hx
  norm_num [exS2] at hx

/-- C1 (amended): availableQuota stays nonnegative along every sequence of
reserveQuota and releaseQuota calls in which each granted reservation costs
at most the quota available at grant time and each release reports an actual
cost at most the estimated one (or a falsy one); without that guard the
invariant fails, as the counterexample shows. -/
theorem quota_availableQuota_nonneg (s : QMState) (ops : List QOp)
    (h1 : 0 ≤ s.localQuota.totalQuota) (h2 : 0 ≤ s.localQuota.availableQuota)
    (hsafe : safeTrace s ops = true) :
    0 ≤ (runOps s ops).localQuota.availableQuota :=
  (availableQuota_nonneg_aux ops s h1 h2 hsafe).2

theorem quota_availableQuota_nonneg_witness :
    0 ≤ (runOps exState0 [QOp.reserve 0 exInfo10 "r1"]).localQuota.availableQuota :=
  quota_availableQuota_nonneg exState0 [QOp.reserve 0 exInfo10 "r1"]
    (by norm_num [exState0, freshState])
    (by norm_num [exState0, freshState])
    (by norm_num [safeTrace, safeOp, applyOp, reserveQuota, checkLocalPermission,
      updateQuotaReset, cleanupRequestHistory, getRateLimitStatus, checkRateLimits,
      calculateCurrentLoad, jsNumOr, setAdd, exState0, freshState, exInfo10, exRateLimits,
      msPerMinute, msPerHour, msPerDay])

/-- C2 (counterexample): the second cost-10 reservation against the total-15
ledger is not denied, and it does mutate the ledger. -/
theorem quota_claim_c2_false :
    (reserveQuota exS1 0 exInfo10 "r2").1.isDenied = false ∧
    (reserveQuota exS1 0 exInfo10 "r2").2 ≠ exS1 := by
  rw [ev_reserve2]
  refine ⟨rfl, fun he => ?_⟩
  have hq := congrArg (fun t => t.localQuota.availableQuota) he
  norm_num [exS1, exS2] at hq

/-- C2 (amended): on the fresh total-15 ledger the first cost-10 reservation
succeeds leaving availableQuota 5; the second cost-10 reservation also
succeeds, because checkLocalPermission only requires availableQuota > 0 and
never compares it against the estimated cost, leaving availableQuota -5 and
usedQuota 20. -/
theorem quota_second_reservation_overdrafts :
    reserveQuota exState0 0 exInfo10 "r1" = (.ok "r1", exS1) ∧
    exS1.localQuota.availableQuota = 5 ∧
    reserveQuota exS1 0 exInfo10 "r2" = (.ok "r2", exS2) ∧
    exS2.localQuota.availableQuota = -5 ∧
    exS2.localQuota.usedQuota = 20 :=
  ⟨ev_reserve1, by norm_num [exS1], ev_reserve2, by norm_num [exS2], by norm_num [exS2]⟩

/-- C5 (counterexample): checkLocalPermission is not pure: once resetTime has
passed, the embedded lazy reset zeroes usedQuota. -/
theorem quota_claim_c5_false : ¬ ClaimC5 := by
  intro h
  have hx := h staleState 1 {}
  have hq := congrArg (fun t => t.localQuota.usedQuota) hx
  rw [checkLocalPermission_snd] at hq
  norm_num [staleState, updateQuotaReset, cleanupRequestHistory, getNextResetTime,
    msPerDay] at hq

/-- C5 (amended): checkLocalPermission mutates only through the lazy quota
reset and the 24-hour history cleanup; when now is still before resetTime and
every history entry is younger than 24 hours it leaves the whole ledger state
(usedQuota, availableQuota, resetTime, request history, active reservations)
unchanged. -/
theorem checkLocalPermission_pure (s : QMState) (now : ℤ) (info : RequestInfo)
    (h1 : now < s.localQuota.resetTime)
    (h2 : ∀ r ∈ s.requestHistory, now - msPerDay < r.timestamp) :
    (checkLocalPermission s now info).2 = s := by
  rw [checkLocalPermission_snd]
  have hu : updateQuotaReset s now = s := by
    unfold updateQuotaReset
    rw [if_neg (not_le.mpr h1)]
  rw [hu]
  unfold cleanupRequestHistory
  have hf : s.requestHistory.filter (fun r => decide (now - msPerDay < r.timestamp)) =
      s.requestHistory :=
    List.filter_eq_self.mpr (fun r hr => decide_eq_true (h2 r hr))
  rw [hf]

theorem checkLocalPermission_pure_witness :
    (checkLocalPermission (freshState 10 exRateLimits 5) 0 {}).2 =
      freshState 10 exRateLimits 5 :=
  checkLocalPermission_pure (freshState 10 exRateLimits 5) 0 {}
    (by norm_num [freshState]) (by simp [freshState])

theorem ev_release1 : releaseQuota relState 0 "r1" relInfo3 = relS1 := by
  norm_num [releaseQuota, relStamp, relAdjust, updateFirst, jsStrOr, relState, relInfo3,
    relS1, exRateLimits, List.find?, List.erase]

theorem ev_release2 : releaseQuota relS1 0 "r1" relInfo3 = relS2 := by
  norm_num [releaseQuota, relStamp, relAdjust, updateFirst, jsStrOr, relS1, relInfo3,
    relS2, exRateLimits, List.find?, List.erase]

/-- C7 (counterexample): releasing the same reservation twice with the same
completion info (actual cost 3 against an estimate of 1) re-applies the cost
delta: usedQuota and availableQuota differ after the duplicate release. -/
theorem quota_claim_c7_false :
    releaseQuota relState 0 "r1" relInfo3 = relS1 ∧
    releaseQuota relS1 0 "r1" relInfo3 = relS2 ∧
    relS2.localQuota.availableQuota ≠ relS1.localQuota.availableQuota ∧
    relS2.localQuota.usedQuota ≠ relS1.localQuota.usedQuota :=
  ⟨ev_release1, ev_release2, by norm_num [relS1, relS2], by norm_num [relS1, relS2]⟩

theorem find?_updateFirst (p : α → Bool) (f : α → α) (hp : ∀ a, p (f a) = p a)
    (l : List α) : (updateFirst p f l).find? p = (l.find? p).map f := by
  induction l with
  | nil => rfl
  | cons a l ih =>
    by_cases ha : p a = true
    · simp [updateFirst, ha, List.find?, hp a]
    · have ha' : p a = false := by simpa using ha
      simp [updateFirst, ha', List.find?, ih]

end QM

namespace QM

/-- C7 (amended): releasing an unknown reservation id is a complete no-op;
and a duplicate release with the same completion info leaves usedQuota and
availableQuota unchanged exactly when the completion reports no actual cost,
a falsy one, or the reservation's own estimated cost — otherwise the delta
is re-applied, as the counterexample shows. -/
theorem releaseQuota_noop_and_guarded_idem (s : QMState) (now1 now2 : ℤ) (rid : String)
    (cinfo : CompletionInfo) :
    (s.requestHistory.find? (fun r => r.id == rid) = none →
      releaseQuota s now1 rid cinfo = s) ∧
    (releaseIdemGuard s rid cinfo = true →
      (releaseQuota (releaseQuota s now1 rid cinfo) now2 rid cinfo).localQuota =
        (releaseQuota s now1 rid cinfo).localQuota) := by
  constructor
  · intro h
    simp only [releaseQuota, h]
  · intro hg
    unfold releaseIdemGuard at hg
    cases hfind : s.requestHistory.find? (fun r => r.id == rid) with
    | none => simp only [releaseQuota, hfind]
    | some req =>
      rw [hfind] at hg
      have hadj : relAdjust cinfo req.cost = 0 := by
        unfold relAdjust
        cases hac : cinfo.actualCost with
        | none => rfl
        | some a =>
          rw [hac] at hg
          simp only [Bool.or_eq_true, decide_eq_true_eq] at hg
          have hno : ¬ (a ≠ 0 ∧ a ≠ req.cost) := by
            rcases hg with h | h
            · exact fun hc => hc.1 h
            · exact fun hc => hc.2 h
          dsimp only
          rw [if_neg hno]
      have hfind2 : (releaseQuota s now1 rid cinfo).requestHistory.find?
          (fun r => r.id == rid) = some (relStamp cinfo now1 req.cost req) := by
        simp only [releaseQuota, hfind]
        rw [find?_updateFirst (fun r => r.id == rid) (relStamp cinfo now1 req.cost)
          (fun a => rfl), hfind, Option.map_some']
      have hcost : (relStamp cinfo now1 req.cost req).cost = req.cost := rfl
      conv_lhs => rw [releaseQuota]
      rw [hfind2]
      simp only [hcost, hadj]
      simp only [releaseQuota, hfind, hadj]
      simp

theorem releaseQuota_noop_witness :
    releaseQuota (freshState 10 exRateLimits 5) 0 "x" {} = freshState 10 exRateLimits 5 ∧
    (releaseQuota (releaseQuota relState 0 "r1" {}) 0 "r1" {}).localQuota =
      (releaseQuota relState 0 "r1" {}).localQuota :=
  ⟨(releaseQuota_noop_and_guarded_idem (freshState 10 exRateLimits 5) 0 0 "x" {}).1 rfl,
   (releaseQuota_noop_and_guarded_idem relState 0 0 "r1" {}).2 (by rfl)⟩

end QM

namespace SM

theorem updateTrustScore_trust_pid (σ : SMState) (pid : String) (d : ℚ) (now : ℤ) :
    (updateTrustScore σ pid d now).trust pid =
      some { score := max 0 (min 1 (((σ.trust pid).getD (initialTrust now)).score + d))
             lastUpdated := now
             interactions := ((σ.trust pid).getD (initialTrust now)).interactions + 1
             violations := ((σ.trust pid).getD (initialTrust now)).violations +
               (if d < 0 then 1 else 0)
             positiveActions := ((σ.trust pid).getD (initialTrust now)).positiveActions +
               (if 0 < d then 1 else 0) } := by
  unfold updateTrustScore blockPeer
  dsimp only
  rw [apply_ite (fun s : SMState => s.trust pid)]
  simp

theorem updateTrustScore_trust_other (σ : SMState) (pid p : String) (d : ℚ) (now : ℤ)
    (hp : p ≠ pid) : (updateTrustScore σ pid d now).trust p = σ.trust p := by
  unfold updateTrustScore blockPeer
  dsimp only
  rw [apply_ite (fun s : SMState => s.trust p)]
  simp [hp]

theorem scoreView_updateTrustScore (σ : SMState) (pid : String) (d : ℚ) (now : ℤ) :
    scoreView (updateTrustScore σ pid d now) pid = max 0 (min 1 (scoreView σ pid + d)) := by
  unfold scoreView
  rw [updateTrustScore_trust_pid]
  cases h : σ.trust pid <;> simp [h, initialTrust]

theorem updateTrustScore_reqHistory (σ : SMState) (pid : String) (d : ℚ) (now : ℤ) :
    (updateTrustScore σ pid d now).reqHistory = σ.reqHistory := by
  unfold updateTrustScore blockPeer
  dsimp only
  rw [apply_ite (fun s : SMState => s.reqHistory)]
  simp

theorem getTrustScore_snd_reqHistory (σ : SMState) (pid : String) (now : ℤ) (f : ℚ) :
    ((getTrustScore σ pid now f).2).reqHistory = σ.reqHistory := by
  unfold getTrustScore
  cases h : σ.trust pid <;> simp [h]

theorem getTrustScore_bounds (σ : SMState) (pid : String) (now : ℤ) (f : ℚ) :
    0 ≤ (getTrustScore σ pid now f).1 ∧ (getTrustScore σ pid now f).1 ≤ 1 := by
  unfold getTrustScore
  cases h : σ.trust pid <;>
    · simp only [h]
      exact ⟨le_max_left 0 _, max_le zero_le_one (min_le_left 1 _)⟩

theorem updateTrustScore_bounds (σ : SMState) (pid p : String) (d : ℚ) (now : ℤ)
    (td : TrustData)
    (hb : ∀ q u, σ.trust q = some u → 0 ≤ u.score ∧ u.score ≤ 1)
    (h : (updateTrustScore σ pid d now).trust p = some td) :
    0 ≤ td.score ∧ td.score ≤ 1 := by
  by_cases hp : p = pid
  · subst hp
    rw [updateTrustScore_trust_pid] at h
    cases h
    exact ⟨le_max_left 0 _, max_le zero_le_one (min_le_left 1 _)⟩
  · rw [updateTrustScore_trust_other σ pid p d now hp] at h
    exact hb p td h

theorem applyTrustUpdates_bounds (ops : List (String × ℚ × ℤ)) :
    ∀ σ : SMState, (∀ q u, σ.trust q = some u → 0 ≤ u.score ∧ u.score ≤ 1) →
      ∀ p td, (applyTrustUpdates σ ops).trust p = some td → 0 ≤ td.score ∧ td.score ≤ 1 := by
  induction ops with
  | nil => exact fun σ hb p td h => hb p td h
  | cons op ops ih =>
    intro σ hb p td h
    exact ih (updateTrustScore σ op.1 op.2.1 op.2.2)
      (fun q u hq => updateTrustScore_bounds σ op.1 q op.2.1 op.2.2 u hb hq) p td h

theorem scoreView_applyDeltas (pid : String) (ds : List (ℚ × ℤ)) :
    ∀ σ : SMState, scoreView (applyDeltas σ pid ds) pid =
      (ds.map Prod.fst).foldl clampAdd (scoreView σ pid) := by
  induction ds with
  | nil => exact fun σ => rfl
  | cons d ds ih =>
    intro σ
    have h1 : applyDeltas σ pid (d :: ds) = applyDeltas (updateTrustScore σ pid d.1 d.2) pid ds := rfl
    rw [h1, ih, List.map_cons, List.foldl_cons]
    rw [show clampAdd (scoreView σ pid) d.1 = scoreView (updateTrustScore σ pid d.1 d.2) pid from
      (scoreView_updateTrustScore σ pid d.1 d.2).symm]

theorem clampAdd_of_nonneg (s d : ℚ) (hs : 0 ≤ s) (hd : 0 ≤ d) :
    clampAdd s d = min 1 (s + d) := by
  unfold clampAdd
  exact max_eq_right (le_min (by linarith) (by linarith))

theorem min_one_add (a b : ℚ) (hb : 0 ≤ b) : min 1 (min 1 a + b) = min 1 (a + b) := by
  rcases le_total a 1 with h | h
  · rw [min_eq_right h]
  · rw [min_eq_left h, min_eq_left (by linarith), min_eq_left (by linarith)]

theorem clampFold_eq_min (l : List ℚ) :
    ∀ s : ℚ, 0 ≤ s → s ≤ 1 → (∀ d ∈ l, 0 ≤ d) →
      l.foldl clampAdd s = min 1 (s + l.sum) := by
  induction l with
  | nil => intro s h0 h1 _; simp [min_eq_right (by linarith : s ≤ (1:ℚ))]
  | cons d l ih =>
    intro s h0 h1 hd
    have hd0 : 0 ≤ d := hd d (List.mem_cons_self d l)
    have hrest : ∀ x ∈ l, 0 ≤ x := fun x hx => hd x (List.mem_cons_of_mem d hx)
    have hsum : 0 ≤ l.sum := List.sum_nonneg hrest
    rw [List.foldl_cons, clampAdd_of_nonneg s d h0 hd0]
    rw [ih (min 1 (s + d)) (le_min zero_le_one (by linarith)) (min_le_left 1 _) hrest]
    rw [List.sum_cons]
    rw [min_one_add (s + d) l.sum hsum]
    ring_nf

end SM

namespace SM

/-- C4 (counterexample): a peer pinned at score 1 whose record has been idle
for a full day keeps exactly score 1 after a delta-0 updateTrust: no decay
toward the neutral midpoint happens on the update path. -/
theorem trust_claim_c4_false : ¬ ClaimC4 := by
  intro h
  have hx := h idleSM "peer" idleTrustData 86400000 (by rfl) rfl (by decide)
  rw [scoreView_updateTrustScore] at hx
  norm_num [scoreView, idleSM, idleTrustData] at hx

/-- C4 (amended): updateTrustScore applies no time-based decay at all: for
every elapsed time the new stored score is exactly the old stored score plus
the delta, clamped into the unit interval; the only decay in the source sits
on the read path, where getTrustScore multiplies the stored score by the
decay factor (decaying toward zero, not toward the midpoint) without
persisting it. -/
theorem updateTrustScore_no_decay :
    (∀ (σ : SMState) (pid : String) (d : ℚ) (now : ℤ),
      scoreView (updateTrustScore σ pid d now) pid = max 0 (min 1 (scoreView σ pid + d))) ∧
    (∀ (σ : SMState) (pid : String) (now : ℤ) (f : ℚ) (td : TrustData),
      σ.trust pid = some td → (getTrustScore σ pid now f).1 = max 0 (min 1 (td.score * f))) := by
  refine ⟨fun σ pid d now => scoreView_updateTrustScore σ pid d now, fun σ pid now f td h => ?_⟩
  unfold getTrustScore
  rw [h]

theorem updateTrustScore_no_decay_witness :
    scoreView (updateTrustScore idleSM "peer" 0 86400000) "peer" =
      max 0 (min 1 (scoreView idleSM "peer" + 0)) ∧
    (getTrustScore idleSM "peer" 86400000 (1/2)).1 =
      max 0 (min 1 (idleTrustData.score * (1/2))) :=
  ⟨updateTrustScore_no_decay.1 idleSM "peer" 0 86400000,
   updateTrustScore_no_decay.2 idleSM "peer" 86400000 (1/2) idleTrustData (by rfl)⟩

end SM

namespace SM

/-- C9: trust scores stay in the unit interval — every stored record
reachable by updateTrust sequences from a fresh manager is clamped, and
every getTrustScore read is clamped whatever the decay factor; and from the
neutral 0.7 start, a run of positive-delta updates is non-decreasing, equals
min 1 (0.7 + sum of deltas) (so it approaches 1 as deltas accumulate), and
never exceeds 1. -/
theorem trust_score_bounds (cfg : SMConfig) (ops : List (String × ℚ × ℤ)) (pid : String)
    (ds : List (ℚ × ℤ)) (hds : ∀ d ∈ ds, 0 < d.1) :
    (∀ p td, (applyTrustUpdates (initialSM cfg) ops).trust p = some td →
       0 ≤ td.score ∧ td.score ≤ 1) ∧
    (∀ (σ : SMState) (q : String) (now : ℤ) (f : ℚ),
       0 ≤ (getTrustScore σ q now f).1 ∧ (getTrustScore σ q now f).1 ≤ 1) ∧
    scoreView (applyDeltas (initialSM cfg) pid ds) pid =
      min 1 (7/10 + (ds.map Prod.fst).sum) ∧
    (∀ n : ℕ, scoreView (applyDeltas (initialSM cfg) pid (ds.take n)) pid ≤
       scoreView (applyDeltas (initialSM cfg) pid (ds.take (n+1))) pid) ∧
    (∀ n : ℕ, scoreView (applyDeltas (initialSM cfg) pid (ds.take n)) pid ≤ 1) := by
  have hpos : ∀ x ∈ ds.map Prod.fst, 0 ≤ x := by
    intro x hx
    rcases List.mem_map.mp hx with ⟨d, hd, hdx⟩
    exact hdx ▸ le_of_lt (hds d hd)
  have hview0 : scoreView (initialSM cfg) pid = 7/10 := rfl
  have htake : ∀ n : ℕ, scoreView (applyDeltas (initialSM cfg) pid (ds.take n)) pid =
      min 1 (7/10 + ((ds.map Prod.fst).take n).sum) := by
    intro n
    rw [scoreView_applyDeltas, hview0, List.map_take]
    exact clampFold_eq_min ((ds.map Prod.fst).take n) (7/10) (by norm_num) (by norm_num)
      (fun x hx => hpos x (List.take_subset n (ds.map Prod.fst) hx))
  refine ⟨?_, fun σ q now f => getTrustScore_bounds σ q now f, ?_, ?_, ?_⟩
  · exact applyTrustUpdates_bounds ops (initialSM cfg) (fun q u hq => by
      simp [initialSM] at hq)
  · rw [scoreView_applyDeltas, hview0]
    exact clampFold_eq_min (ds.map Prod.fst) (7/10) (by norm_num) (by norm_num) hpos
  · intro n
    rw [htake n, htake (n+1)]
    apply min_le_min (le_refl 1)
    have hsumle : ((ds.map Prod.fst).take n).sum ≤ ((ds.map Prod.fst).take (n+1)).sum := by
      by_cases hn : n < (ds.map Prod.fst).length
      · rw [List.sum_take_succ _ n hn]
        have hg := hpos ((ds.map Prod.fst).get ⟨n, hn⟩) (List.get_mem _ _ _)
        simp only [List.get_eq_getElem] at hg
        linarith
      · push_neg at hn
        rw [List.take_of_length_le hn, List.take_of_length_le (by omega)]
    linarith
  · intro n
    rw [htake n]
    exact min_le_left 1 _

theorem trust_score_bounds_witness :
    scoreView (applyDeltas (initialSM defaultConfig) "p" [(1/10, 0), (2/10, 0)]) "p" =
      min 1 (7/10 + (([(1/10, 0), (2/10, 0)] : List (ℚ × ℤ)).map Prod.fst).sum) :=
  (trust_score_bounds defaultConfig [] "p" [(1/10, 0), (2/10, 0)]
    (by norm_num)).2.2.1

theorem validatePrompt_reqHistory (σ : SMState) (pid : String) (promptLen : ℕ)
    (detected : List String) (now : ℤ) (f : ℚ)
    (hrl : σ.config.enableRateLimiting = true)
    (hnb : σ.blockedPeers.contains pid = false) :
    (validatePrompt σ pid promptLen detected now f).2.reqHistory pid =
      if (prunedHistory σ pid now).length < σ.config.maxRequestsPerWindow
      then prunedHistory σ pid now ++ [now] else prunedHistory σ pid now := by
  unfold validatePrompt
  simp only [hnb, Bool.false_eq_true, if_false]
  simp only [hrl, if_true]
  rw [apply_ite (fun s : SMState => s.reqHistory pid)]
  rw [updateTrustScore_reqHistory, ite_self]
  rw [getTrustScore_snd_reqHistory]
  unfold checkRateLimit prunedHistory
  dsimp only
  split
  · rename_i hfull
    simp only [ite_true, if_pos rfl]
    rw [if_neg (by omega)]
  · rename_i hfree
    simp only [ite_true, if_pos rfl]
    rw [if_pos (by omega)]

/-- C10 (counterexample): once a sender's one-minute window already holds 30
requests, the rejecting validatePrompt call appends nothing: the failed
attempt does not consume budget, so the unconditional append claim fails. -/
theorem trust_claim_c10_false : ¬ ClaimC10 := by
  intro h
  have hx := h fullWindowSM "s" 0 ["code_execution"] 0 1 rfl rfl
  rw [validatePrompt_reqHistory fullWindowSM "s" 0 ["code_execution"] 0 1 rfl rfl] at hx
  have hp : prunedHistory fullWindowSM "s" 0 = List.replicate 30 0 := by decide
  rw [hp] at hx
  rw [if_neg (by decide)] at hx
  have hlen := congrArg List.length hx
  simp at hlen

/-- C10 (amended): with rate limiting enabled, every validatePrompt call by a
non-blocked sender appends exactly one entry to the sender's pruned
sliding-window history whenever the pruned window is still under the
30-request budget — whatever the detected content patterns, including
critical ones — and appends nothing when the window is already full. -/
theorem validatePrompt_records_attempt (σ : SMState) (pid : String) (promptLen : ℕ)
    (detected : List String) (now : ℤ) (f : ℚ)
    (hrl : σ.config.enableRateLimiting = true)
    (hnb : σ.blockedPeers.contains pid = false) :
    (validatePrompt σ pid promptLen detected now f).2.reqHistory pid =
      if (prunedHistory σ pid now).length < σ.config.maxRequestsPerWindow
      then prunedHistory σ pid now ++ [now] else prunedHistory σ pid now :=
  validatePrompt_reqHistory σ pid promptLen detected now f hrl hnb

theorem validatePrompt_records_attempt_witness :
    (validatePrompt (initialSM defaultConfig) "s" 0 ["code_execution"] 0 1).2.reqHistory "s" =
      if (prunedHistory (initialSM defaultConfig) "s" 0).length <
          (initialSM defaultConfig).config.maxRequestsPerWindow
      then prunedHistory (initialSM defaultConfig) "s" 0 ++ [0]
      else prunedHistory (initialSM defaultConfig) "s" 0 :=
  validatePrompt_records_attempt (initialSM defaultConfig) "s" 0 ["code_execution"] 0 1 rfl rfl

end SM

namespace P2P

theorem chunksConcat_append (l1 l2 : List ResponseMsg) :
    chunksConcat (l1 ++ l2) = chunksConcat l1 ++ chunksConcat l2 := by
  unfold chunksConcat
  rw [List.map_append, List.foldl_append]
  generalize (l1.map (fun m => m.chunk)).foldl (fun a b => a ++ b) "" = a
  induction l2 generalizing a with
  | nil =>
    show a = a ++ ""
    apply String.ext
    rw [String.data_append]
    rw [List.append_nil]
  | cons c l2 ih =>
    simp only [List.map_cons, List.foldl_cons]
    rw [ih (a ++ c.chunk), ih ("" ++ c.chunk)]
    rw [show "" ++ c.chunk = c.chunk from rfl, String.append_assoc]

theorem chunksConcat_cons (m : ResponseMsg) (ms : List ResponseMsg) :
    chunksConcat (m :: ms) = m.chunk ++ chunksConcat ms := by
  have h := chunksConcat_append [m] ms
  rw [show ([m] : List ResponseMsg) ++ ms = m :: ms from rfl] at h
  rw [h]
  rfl

theorem deliver_partial (tid : String) (msgs : List ResponseMsg)
    (hall : ∀ m ∈ msgs, m.taskId = tid ∧ m.isComplete = false) :
    ∀ (p : P2PState) (h : TaskHandler), p.handlers tid = some h →
      ∃ h2 : TaskHandler, (deliver p msgs).handlers tid = some h2 ∧
        h2.responseBuffer.getD "" = h.responseBuffer.getD "" ++ chunksConcat msgs ∧
        h2.timerArmed = h.timerArmed ∧
        (deliver p msgs).promises = p.promises := by
  induction msgs with
  | nil =>
    intro p h hp
    exact ⟨h, hp, by simp [chunksConcat], rfl, rfl⟩
  | cons m ms ih =>
    intro p h hp
    have hm := hall m (List.mem_cons_self m ms)
    have hrest : ∀ x ∈ ms, x.taskId = tid ∧ x.isComplete = false :=
      fun x hx => hall x (List.mem_cons_of_mem m hx)
    have hstep : deliver p (m :: ms) = deliver (handlePromptResponse p m) ms := rfl
    have hnew : (handlePromptResponse p m).handlers tid =
        some { responseBuffer := some (h.responseBuffer.getD "" ++ m.chunk)
               timerArmed := h.timerArmed } := by
      unfold handlePromptResponse
      rw [hm.1, hp, hm.2]
      simp
    obtain ⟨h2, hh2, hbuf, htimer, hprom⟩ :=
      ih hrest (handlePromptResponse p m) _ hnew
    refine ⟨h2, by rw [hstep]; exact hh2, ?_, by rw [htimer], ?_⟩
    · rw [hstep] at *
      rw [hbuf]
      simp only [Option.getD_some]
      rw [chunksConcat_cons, String.append_assoc]
    · rw [hstep, hprom]
      unfold handlePromptResponse
      rw [hm.1, hp, hm.2]
      simp

/-- C3 (amended): the receiving session concatenates the chunks of a task in
arrival order (chunkIndex is ignored), resolving the promise with that
arrival-order concatenation on the completing chunk; delivery equals
index order only when the channel happens to deliver in index order. -/
theorem deliver_arrival_order (tid : String) (msgs : List ResponseMsg) (last : ResponseMsg)
    (p : P2PState) (h : TaskHandler)
    (hh : p.handlers tid = some h) (hpend : p.promises tid = some none)
    (hall : ∀ m ∈ msgs, m.taskId = tid ∧ m.isComplete = false)
    (hl1 : last.taskId = tid) (hl2 : last.isComplete = true) :
    (deliver p (msgs ++ [last])).promises tid =
      some (some (.resolved (h.responseBuffer.getD "" ++ chunksConcat (msgs ++ [last])))) ∧
    (deliver p (msgs ++ [last])).handlers tid = none := by
  have hsplit : deliver p (msgs ++ [last]) = handlePromptResponse (deliver p msgs) last := by
    unfold deliver
    rw [List.foldl_append]
    rfl
  obtain ⟨h2, hh2, hbuf, _, hprom⟩ := deliver_partial tid msgs hall p h hh
  rw [hsplit]
  unfold handlePromptResponse
  rw [hl1, hh2, hl2]
  simp only [if_true]
  constructor
  · show settle (deliver p msgs).promises tid
      (.resolved (h2.responseBuffer.getD "" ++ last.chunk)) tid = _
    unfold settle
    rw [if_pos rfl, hprom, hpend]
    rw [hbuf, chunksConcat_append]
    simp [chunksConcat, String.append_assoc]
  · simp

theorem deliver_arrival_order_witness :
    (deliver pReg [msgA, msgB, msgC]).promises "t" =
      some (some (.resolved ((none : Option String).getD "" ++
        chunksConcat [msgA, msgB, msgC]))) ∧
    (deliver pReg [msgA, msgB, msgC]).handlers "t" = none :=
  deliver_arrival_order "t" [msgA, msgB] msgC pReg
    { responseBuffer := none, timerArmed := true }
    rfl rfl (by decide) rfl rfl

/-- C3 (counterexample): chunks A(index 0), B(index 1), C(index 2, complete)
arriving in the order B, A, C are delivered as the arrival-order
concatenation BAC, not the index-order concatenation ABC. -/
theorem p2p_claim_c3_false :
    pOutOfOrder.promises "t" = some (some (.resolved "BAC")) ∧ ¬ ClaimC3 := by
  constructor
  · decide
  · intro hc
    unfold ClaimC3 at hc
    exact absurd hc (by decide)

end P2P

namespace P2P

/-- C6 (counterexample): when the timer of a task with a buffered partial
response fires, the handler entry (and so the buffered partial) is NOT
discarded, so the claimed discard-reject-report behaviour fails. -/
theorem p2p_claim_c6_false : ¬ ClaimC6 := by
  intro h
  exact absurd h.1 (by decide)

/-- C6 (amended): on per-task timer expiry the source only rejects the
pending completion with the timeout error; the handler entry and its
buffered partial response stay in the map until a terminal chunk or error
arrives, and the SecurityManager state is untouched — the P2P manager holds
no reference to it, so no timeout-category trust report is made here. -/
theorem timerFire_rejects_only (p : P2PState) (σ : SM.SMState) (tid : String)
    (h : TaskHandler) (hh : p.handlers tid = some h) (harm : h.timerArmed = true) :
    (p.promises tid = some none →
      (timeoutStep p σ tid).1.promises tid =
        some (some (.rejected "Prompt delegation timeout"))) ∧
    (timeoutStep p σ tid).1.handlers tid = some { h with timerArmed := false } ∧
    (timeoutStep p σ tid).2 = σ := by
  unfold timeoutStep timerFire
  rw [hh]
  dsimp only
  rw [harm]
  simp only [if_true]
  refine ⟨?_, by simp, by simp⟩
  intro hpend
  show settle p.promises tid (.rejected "Prompt delegation timeout") tid = _
  unfold settle
  rw [if_pos rfl, hpend]

theorem timerFire_rejects_only_witness :
    (timeoutStep pBuffered SM.idleSM "t").1.promises "t" =
      some (some (.rejected "Prompt delegation timeout")) ∧
    (timeoutStep pBuffered SM.idleSM "t").1.handlers "t" =
      some { responseBuffer := some "partial", timerArmed := false } ∧
    (timeoutStep pBuffered SM.idleSM "t").2 = SM.idleSM := by
  have h := timerFire_rejects_only pBuffered SM.idleSM "t"
    { responseBuffer := some "partial", timerArmed := true } rfl rfl
  exact ⟨h.1 rfl, h.2.1, h.2.2⟩

end P2P

namespace Sig

theorem findMatchingPeers_sound (st : SigState) (rid : String) (reqs : Requirements)
    (now : ℤ) (mp : MatchPeer) (hmp : mp ∈ findMatchingPeers st rid reqs now) :
    mp.peerId ≠ rid ∧
    (lookupPeer st mp.peerId).map (fun c => c.wsOpen) = some true := by
  unfold findMatchingPeers at hmp
  rw [List.mem_mergeSort] at hmp
  obtain ⟨pc, hpcmem, hpc⟩ := List.mem_filterMap.mp hmp
  by_cases h1 : (pc.1 == rid) = true
  · rw [if_pos h1] at hpc
    exact absurd hpc (by simp)
  · rw [if_neg h1] at hpc
    cases hlook : lookupPeer st pc.1 with
    | none =>
      rw [hlook] at hpc
      exact absurd hpc (by simp)
    | some conn =>
      rw [hlook] at hpc
      dsimp only at hpc
      by_cases h2 : conn.wsOpen = false
      · rw [if_pos h2] at hpc
        exact absurd hpc (by simp)
      · rw [if_neg h2] at hpc
        by_cases h3 : capMatches reqs pc.2 = true
        · rw [if_pos h3] at hpc
          have hmp_eq := Option.some.inj hpc
          have hopen : conn.wsOpen = true := by
            cases hb : conn.wsOpen
            · exact absurd hb h2
            · rfl
          constructor
          · rw [← hmp_eq]
            intro he
            exact h1 (beq_iff_eq.mpr he)
          · rw [← hmp_eq]
            dsimp only
            rw [hlook]
            simp [hopen]
        · rw [if_neg h3] at hpc
          exact absurd hpc (by simp)

end Sig

namespace Sig

/-- C8: findMatchingPeers never returns the requesting node (the requester is
skipped explicitly), every returned peer has a live open connection in the
peers table at call time, and a node removed by handlePeerDisconnect before
the call can never be returned. -/
theorem discover_excludes (st : SigState) (rid : String) (reqs : Requirements)
    (now : ℤ) (d : String) :
    (∀ mp ∈ findMatchingPeers st rid reqs now,
       mp.peerId ≠ rid ∧ (lookupPeer st mp.peerId).map (fun c => c.wsOpen) = some true) ∧
    (∀ mp ∈ findMatchingPeers (handlePeerDisconnect st d) rid reqs now, mp.peerId ≠ d) := by
  constructor
  · exact fun mp hmp => findMatchingPeers_sound st rid reqs now mp hmp
  · intro mp hmp
    have h := (findMatchingPeers_sound _ rid reqs now mp hmp).2
    cases hlk : lookupPeer (handlePeerDisconnect st d) mp.peerId with
    | none =>
      rw [hlk] at h
      exact absurd h (by simp)
    | some conn =>
      unfold lookupPeer at hlk
      obtain ⟨q, hfq, -⟩ := Option.map_eq_some'.mp hlk
      have hqmem := List.mem_of_find?_eq_some hfq
      have hqid : (q.1 == mp.peerId) = true := by
        have hp := List.find?_some hfq
        simpa using hp
      unfold handlePeerDisconnect at hqmem
      dsimp only at hqmem
      have hqd := (List.mem_filter.mp hqmem).2
      rw [beq_iff_eq] at hqid
      simp only [decide_eq_true_eq] at hqd
      intro he
      exact hqd (by rw [hqid, he])

theorem discover_excludes_witness :
    exMatch.peerId ≠ "me" ∧
    (lookupPeer exSig exMatch.peerId).map (fun c => c.wsOpen) = some true :=
  (discover_excludes exSig "me" exReqs 0 "p2").1 exMatch (by
    unfold findMatchingPeers
    exact List.mem_mergeSort.mpr (by decide))

end Sig
